import Mathlib

/-!
Verification development for the Noufeli quest bot core:
reward-scoring engine (`convex/lib/xp.ts`), activity lifecycle
(`convex/activities.ts`), human-readable ID allocator (`convex/lib/ids.ts`),
and the Telegram conversation wizard (`flows.js`).

Numbers are modelled exactly: epoch-millisecond timestamps as `Int`,
JavaScript arithmetic on scores as `Rat` (the formulas are idealised real
arithmetic), `Math.round` as floor of `x + 1/2`.  Optional (possibly
`undefined`) fields are `Option`; JavaScript truthiness tests (`!!x`, `!x`)
are modelled per type (`undefined`, `0` and `""` are falsy).  Thrown
exceptions are `Except.error` with the thrown message.
-/

namespace Noufeli

/-- JavaScript `Math.round`: round half toward positive infinity. -/
def jsRound (q : ℚ) : ℤ := ⌊q + 1/2⌋

/-- Truthiness of an optional string (`!!x`): `undefined` and `""` are falsy. -/
def truthyStr : Option String → Bool
  | none => false
  | some s => s ≠ ""

/-- Truthiness of an optional integer (`!!x`): `undefined` and `0` are falsy. -/
def truthyInt : Option ℤ → Bool
  | none => false
  | some n => n ≠ 0

/-- Truthiness of an optional rational (`!!x`): `undefined` and `0` are falsy. -/
def truthyRat : Option ℚ → Bool
  | none => false
  | some q => q ≠ 0

/-! ### Reward engine (`convex/lib/xp.ts`) -/

/-- `CategoryKey` (quest category) from `xp.ts`. -/
inductive CategoryKey
  | mainQuest | sideQuest | fakeBoss | sleepingDragon | voidFiller
  deriving DecidableEq, Repr

/-- `HorizonKey` (time horizon) from `xp.ts`. -/
inductive HorizonKey
  | today | week | month | quarter | annum | someday
  deriving DecidableEq, Repr

/-- `CATEGORY_MULTIPLIER` from `xp.ts`. -/
def CATEGORY_MULTIPLIER : CategoryKey → ℚ
  | .mainQuest => 2
  | .sideQuest => 125/100
  | .fakeBoss => 1
  | .sleepingDragon => 15/10
  | .voidFiller => 5/10

/-- `HORIZON_BONUS` from `xp.ts`. -/
def HORIZON_BONUS : HorizonKey → ℚ
  | .today => 5
  | .week => 3
  | .month => 2
  | .quarter => 1
  | .annum => 0
  | .someday => 0

/-- Number of UTF-16 code units a code point occupies (JavaScript string
positions are UTF-16 units). -/
def utf16Len (c : Char) : ℕ := if c.toNat < 65536 then 1 else 2

/-- JavaScript `slice(0, budget)` on a string, as the characters lying
entirely within the first `budget` UTF-16 code units.  An astral character
cut at the boundary leaves a lone surrogate in the JS slice; a lone
surrogate has no case mapping, so it never passes the INCUP test below and
is dropped here. -/
def jsSliceChars : List Char → ℕ → List Char
  | [], _ => []
  | c :: cs, budget =>
    if utf16Len c ≤ budget then c :: jsSliceChars cs (budget - utf16Len c)
    else []

/-- `incup.slice(0, 5)`. -/
def jsTake5 (cs : List Char) : List Char := jsSliceChars cs 5

/-- JavaScript `String.prototype.toUpperCase` on a one-character string
(string-valued: `'ß'.toUpperCase() = "SS"`).  The table carries the exact
Unicode default case mappings for ASCII and Latin-1 (`a–z`, `µ → Μ`,
`ß → SS`, `à–þ` except `÷`, `ÿ → Ÿ`) and leaves every other character
unchanged — exact for all characters without a simple uppercase mapping
(e.g. `ℂ`, U+2102); characters above U+00FF that do have a mapping are
outside the modelled fragment and the theorems below do not quantify over
them. -/
def jsToUpperChars (c : Char) : List Char :=
  if 97 ≤ c.toNat ∧ c.toNat ≤ 122 then [Char.ofNat (c.toNat - 32)]
  else if c.toNat = 181 then [Char.ofNat 924]
  else if c.toNat = 223 then [Char.ofNat 83, Char.ofNat 83]
  else if 224 ≤ c.toNat ∧ c.toNat ≤ 254 ∧ c.toNat ≠ 247 then
    [Char.ofNat (c.toNat - 32)]
  else if c.toNat = 255 then [Char.ofNat 376]
  else [c]

/-- JavaScript `String.prototype.toLowerCase` on a one-character string,
with the same modelled fragment: the exact Unicode default case mappings
for ASCII and Latin-1 (`A–Z` and `À–Þ` except `×` map +32; nothing else in
Latin-1 has a lowercase mapping), every other character unchanged — exact
for all characters without a simple lowercase mapping (e.g. `ℂ`). -/
def jsToLowerChars (c : Char) : List Char :=
  if 65 ≤ c.toNat ∧ c.toNat ≤ 90 then [Char.ofNat (c.toNat + 32)]
  else if 192 ≤ c.toNat ∧ c.toNat ≤ 222 ∧ c.toNat ≠ 215 then
    [Char.ofNat (c.toNat + 32)]
  else [c]

/-- The per-character test in `parseIncupScore`:
`ch === ch.toUpperCase() && ch !== ch.toLowerCase()`. -/
def incupCharHigh (c : Char) : Bool :=
  jsToUpperChars c = [c] ∧ jsToLowerChars c ≠ [c]

/-- `parseIncupScore` from `xp.ts`: count "high" characters among
`incup.slice(0, 5)`; empty string short-circuits to 0. -/
def parseIncupScore (incup : String) : ℕ :=
  if incup = "" then 0
  else (jsTake5 incup.data).foldl
    (fun score ch => if incupCharHigh ch then score + 1 else score) 0

/-- `computeCaptureXp` from `xp.ts`. -/
def computeCaptureXp (hasLink : Bool) : ℤ :=
  let base : ℤ := 10
  let linkBonus : ℤ := if hasLink then 5 else 0
  base + linkBonus

/-- Input of `computeOrganiseXp` (`OrganiseXpInput` in `xp.ts`). -/
structure OrganiseXpInput where
  category : CategoryKey
  horizon : HorizonKey
  incup : String
  hasGoal : Bool
  hasDeadline : Bool
  hasEstMinutes : Bool
  mentalBlock : Bool

/-- `computeOrganiseXp` from `xp.ts`. -/
def computeOrganiseXp (input : OrganiseXpInput) : ℤ :=
  let base : ℚ := 20
  let categoryMult := CATEGORY_MULTIPLIER input.category
  let horizonBonus := HORIZON_BONUS input.horizon
  let incupBonus : ℚ := (parseIncupScore input.incup : ℚ) * 2
  let goalBonus : ℚ := if input.hasGoal then 5 else 0
  let deadlineBonus : ℚ := if input.hasDeadline then 3 else 0
  let estBonus : ℚ := if input.hasEstMinutes then 2 else 0
  let blockPenalty : ℚ := if input.mentalBlock then -5 else 0
  let raw := base * categoryMult + horizonBonus + incupBonus + goalBonus +
    deadlineBonus + estBonus + blockPenalty
  max 5 (jsRound raw)

/-- Input of `computeDoneXp` (`DoneXpInput` in `xp.ts`). -/
structure DoneXpInput where
  organiseXp : ℤ
  completedAt : ℤ
  deadline : Option ℤ
  mentalBlock : Bool
  actualMinutes : Option ℚ
  estMinutes : Option ℚ

/-- Result of `computeDoneXp` (`DoneXpResult` in `xp.ts`). -/
structure DoneXpResult where
  doneXp : ℤ
  isLate : Bool
  chrysolite : ℤ
  deriving DecidableEq, Repr

/-- `computeDoneXp` from `xp.ts`: base = organiseXp × 1.5, 5%-per-hour late
penalty capped at 50%, +10 mental-block bonus, speed bonus 15 (with one
chrysolite) when on time and ratio ≤ 0.8, else 5 when ratio ≤ 1. -/
def computeDoneXp (input : DoneXpInput) : DoneXpResult :=
  let base : ℚ := (input.organiseXp : ℚ) * (15/10)
  let now := input.completedAt
  let late : Bool × ℚ :=
    match input.deadline with
    | none => (false, 0)
    | some d =>
      if d < now then
        (true, min (1/2) ((((now - d : ℤ) : ℚ) / (1000 * 60 * 60)) * (5/100)))
      else (false, 0)
  let isLate := late.1
  let latePenalty := late.2
  let blockBonus : ℚ := if input.mentalBlock then 10 else 0
  let speed : ℚ × ℤ :=
    match input.actualMinutes, input.estMinutes with
    | some a, some e =>
      if 0 < e then
        let ratio := a / e
        if ratio ≤ 8/10 ∧ isLate = false then (15, 1)
        else if ratio ≤ 1 then (5, 0)
        else (0, 0)
      else (0, 0)
    | _, _ => (0, 0)
  let doneXp := max 1 (jsRound (base * (1 - latePenalty) + blockBonus + speed.1))
  { doneXp := doneXp, isLate := isLate, chrysolite := speed.2 }

/-- Input of `computeEvaluateXp` (`EvaluateXpInput` in `xp.ts`). -/
structure EvaluateXpInput where
  doneXp : ℤ
  emotionDelta : ℤ

/-- `computeEvaluateXp` from `xp.ts`. -/
def computeEvaluateXp (input : EvaluateXpInput) : ℤ :=
  let base := jsRound ((input.doneXp : ℚ) * (2/10))
  let moodBonus : ℤ := if 0 < input.emotionDelta then min 10 (input.emotionDelta * 3) else 0
  max 5 (base + moodBonus)

/-- The `EMOTION` literals of the schema (`EMOTION_LIST` in `types.ts`). -/
inductive Emotion
  | joyful | excited | hopeful | calm | curious | neutral
  | bored | anxious | frustrated | overwhelmed | defeated
  deriving DecidableEq, Repr

/-- `emotionScore` from `xp.ts` (`EMOTION_SCORE` table, `undefined` ↦ 5). -/
def emotionScore : Option Emotion → ℤ
  | none => 5
  | some .joyful => 10
  | some .excited => 9
  | some .hopeful => 8
  | some .calm => 7
  | some .curious => 6
  | some .neutral => 5
  | some .bored => 4
  | some .anxious => 3
  | some .frustrated => 2
  | some .overwhelmed => 1
  | some .defeated => 0

/-- `computeEmotionDelta` from `xp.ts`. -/
def computeEmotionDelta (before after : Option Emotion) : ℤ :=
  emotionScore after - emotionScore before

/-! ### Lifecycle controller (`convex/activities.ts`)

One activity and its owning user are modelled as explicit records; a Convex
mutation becomes a function from the old records (plus the current time
`Date.now()`) to the new records.  A thrown `Error` is `Except.error` of the
thrown message; in the source the throw happens before any `ctx.db.patch`,
so the error case performs no writes. -/

/-- `ACTIVITY_STATUS` literals from the schema. -/
inductive ActivityStatus
  | captured | organized | inProgress | complete | completeLate | abandoned
  deriving DecidableEq, Repr

/-- Position of a status along the lifecycle order
captured → organized → in-progress → terminal. -/
def statusRank : ActivityStatus → ℕ
  | .captured => 0
  | .organized => 1
  | .inProgress => 2
  | .complete => 3
  | .completeLate => 3
  | .abandoned => 3

/-- One row of the `activities` table (schema in `convex/schema.ts`).
`lifeArea` and `exeType` are kept as plain strings (the mutation validators
only restrict them to literal unions). -/
structure Activity where
  activityId : String
  activity : String
  link : Option String
  feelingBefore : Option Emotion
  capturedAt : ℤ
  goalId : Option String
  incup : Option String
  lifeArea : Option String
  horizon : Option HorizonKey
  exeType : Option String
  category : Option CategoryKey
  estMinutes : Option ℚ
  deadline : Option ℤ
  dependsOn : Option String
  mentalBlock : Option Bool
  sessionStart : Option ℤ
  actualMinutes : Option ℚ
  completedAt : Option ℤ
  feelingAfter : Option Emotion
  emotionDelta : Option ℤ
  status : ActivityStatus
  updatedAt : ℤ
  captureXp : ℤ
  organiseXp : Option ℤ
  doneXp : Option ℤ
  evaluateXp : Option ℤ
  totalXp : ℤ
  chrysolite : Option ℤ
  deriving DecidableEq, Repr

/-- The scoring fields of a `users` row (schema in `convex/schema.ts`). -/
structure User where
  totalXp : ℤ
  chrysolite : ℤ
  hp : ℤ
  deriving DecidableEq, Repr

/-- `captureActivity` from `convex/activities.ts`: insert a fresh activity in
status `captured` with its capture XP, and add that XP to the user's total.
The human-readable id is passed in (its allocation, `nextActivityId`, is
modelled separately below). -/
def captureActivity (activityText : String) (link : Option String)
    (activityId : String) (now : ℤ) (u : User) : Activity × User :=
  let captureXp := computeCaptureXp (truthyStr link)
  ({ activityId := activityId, activity := activityText, link := link,
     feelingBefore := none, capturedAt := now, goalId := none, incup := none,
     lifeArea := none, horizon := none, exeType := none, category := none,
     estMinutes := none, deadline := none, dependsOn := none,
     mentalBlock := none, sessionStart := none, actualMinutes := none,
     completedAt := none, feelingAfter := none, emotionDelta := none,
     status := .captured, updatedAt := now, captureXp := captureXp,
     organiseXp := none, doneXp := none, evaluateXp := none,
     totalXp := captureXp, chrysolite := none },
   { u with totalXp := u.totalXp + captureXp })

/-- Arguments of the `organizeActivity` mutation. -/
structure OrganizeArgs where
  goalId : Option String
  incup : String
  lifeArea : String
  horizon : HorizonKey
  exeType : String
  category : CategoryKey
  deadline : Option ℤ
  estMinutes : Option ℚ
  mentalBlock : Option Bool
  feelingBefore : Option Emotion
  dependsOn : Option String
  deriving DecidableEq, Repr

/-- `organizeActivity` from `convex/activities.ts`: compute the organise XP,
patch the organize fields and `status: "organized"` onto the activity
(no check of the current status), and add the XP to the user's total.
Returns the new activity, new user, and the returned `organiseXp`. -/
def organizeActivity (a : Activity) (args : OrganizeArgs) (now : ℤ)
    (u : User) : Activity × User × ℤ :=
  let orgXp := computeOrganiseXp
    { category := args.category, horizon := args.horizon, incup := args.incup,
      hasGoal := truthyStr args.goalId, hasDeadline := truthyInt args.deadline,
      hasEstMinutes := truthyRat args.estMinutes,
      mentalBlock := args.mentalBlock.getD false }
  let a2 := { a with
    goalId := args.goalId, incup := some args.incup,
    lifeArea := some args.lifeArea, horizon := some args.horizon,
    exeType := some args.exeType, category := some args.category,
    deadline := args.deadline, estMinutes := args.estMinutes,
    mentalBlock := some (args.mentalBlock.getD false),
    feelingBefore := args.feelingBefore, dependsOn := args.dependsOn,
    status := .organized, organiseXp := some orgXp,
    totalXp := a.totalXp + orgXp, updatedAt := now }
  (a2, { u with totalXp := u.totalXp + orgXp }, orgXp)

/-- `startFocusSession` from `convex/activities.ts`: unconditionally patch
`sessionStart: Date.now()` and `status: "in-progress"`. -/
def startFocusSession (a : Activity) (now : ℤ) : Activity :=
  { a with sessionStart := some now, status := .inProgress, updatedAt := now }

/-- `finishFocusSession` from `convex/activities.ts`.  Throws
`"No active session"` when `!activity.sessionStart` (absent or 0); otherwise
computes the actual minutes, the done XP, the final status from the late
flag, clears `sessionStart`, and applies XP / chrysolite / HP to the user
(HP −10 floored at 0 when late).  Returns `(doneXp, chrysolite)`. -/
def finishFocusSession (a : Activity) (u : User) (now : ℤ) :
    Except String (Activity × User × (ℤ × ℤ)) :=
  if a.sessionStart.getD 0 = 0 then .error "No active session"
  else
    let s := a.sessionStart.getD 0
    let actualMinutes : ℤ := jsRound (((now - s : ℤ) : ℚ) / 60000)
    let doneResult := computeDoneXp
      { organiseXp := a.organiseXp.getD 0, completedAt := now,
        deadline := a.deadline, mentalBlock := a.mentalBlock.getD false,
        actualMinutes := some (actualMinutes : ℚ), estMinutes := a.estMinutes }
    let status : ActivityStatus :=
      if doneResult.isLate then .completeLate else .complete
    let a2 := { a with
      actualMinutes := some (actualMinutes : ℚ), completedAt := some now,
      status := status, sessionStart := none,
      doneXp := some doneResult.doneXp,
      totalXp := a.totalXp + doneResult.doneXp,
      chrysolite := some (a.chrysolite.getD 0 + doneResult.chrysolite),
      updatedAt := now }
    let u2 := { u with
      totalXp := u.totalXp + doneResult.doneXp,
      chrysolite := u.chrysolite + doneResult.chrysolite,
      hp := if doneResult.isLate then max 0 (u.hp - 10) else u.hp }
    .ok (a2, u2, (doneResult.doneXp, doneResult.chrysolite))

/-- `evaluateActivity` from `convex/activities.ts`.  Throws
`"Activity not completed"` when `!activity.doneXp` (absent or 0); otherwise
computes the emotion delta and evaluate XP, patches them (the status is not
changed), and adds the XP to the user's total. -/
def evaluateActivity (a : Activity) (u : User) (feelingAfter : Emotion)
    (now : ℤ) : Except String (Activity × User × (ℤ × ℤ)) :=
  if a.doneXp.getD 0 = 0 then .error "Activity not completed"
  else
    let emotionDelta := computeEmotionDelta a.feelingBefore (some feelingAfter)
    let evalXp := computeEvaluateXp
      { doneXp := a.doneXp.getD 0, emotionDelta := emotionDelta }
    let a2 := { a with
      feelingAfter := some feelingAfter, emotionDelta := some emotionDelta,
      evaluateXp := some evalXp, totalXp := a.totalXp + evalXp,
      updatedAt := now }
    .ok (a2, { u with totalXp := u.totalXp + evalXp }, (evalXp, emotionDelta))

/-- Whether `now` is past the activity's deadline (the lateness condition of
`computeDoneXp`: a deadline exists and completion is strictly after it). -/
def isLateAt (a : Activity) (now : ℤ) : Bool :=
  match a.deadline with
  | some d => d < now
  | none => false

/-- The full lifecycle run used by the "total = sum of stages" property:
capture at `t0`, organize at `t1`, start a focus session at `t2`, finish it
at `t3`, evaluate at `t4`.  Returns `none` if any step throws. -/
def runLifecycle (activityText : String) (link : Option String)
    (activityId : String) (t0 : ℤ) (u0 : User) (args : OrganizeArgs)
    (t1 t2 t3 : ℤ) (feeling : Emotion) (t4 : ℤ) : Option (Activity × User) :=
  let cap := captureActivity activityText link activityId t0 u0
  let org := organizeActivity cap.1 args t1 cap.2
  let a2 := startFocusSession org.1 t2
  match finishFocusSession a2 org.2.1 t3 with
  | .error _ => none
  | .ok (a3, u3, _) =>
    match evaluateActivity a3 u3 feeling t4 with
    | .error _ => none
    | .ok (a4, u4, _) => some (a4, u4)

/-- The property claimed for a full on-time, under-estimate lifecycle run:
it succeeds, the stored total equals the sum of the four stage scores, and
exactly one chrysolite is on the activity. -/
def lifecycleClaimHolds : Option (Activity × User) → Prop
  | some (a, _) =>
      a.totalXp = a.captureXp + a.organiseXp.getD 0 + a.doneXp.getD 0 +
        a.evaluateXp.getD 0 ∧ a.chrysolite = some 1
  | none => False

/-! ### ID allocator (`convex/lib/ids.ts`)

`nextActivityId` queries the user's activities, takes the maximum numeric
suffix (`extractNum`, which is `parseInt(last, 10)` on the part after the
last `-`, `NaN ↦ 0`), and returns `"A-" + pad(max + 1)`.  JavaScript string
primitives are modelled at the character-list level: `String(n)` as decimal
digits, `padStart(4, "0")`, `split("-")`, and `parseInt(·, 10)` (optional
whitespace and sign, then the longest leading run of decimal digits; no
digits ↦ NaN). -/

/-- The decimal digit character of `d` (for `d < 10`). -/
def digitCharOf (d : ℕ) : Char := Char.ofNat (48 + d)

/-- Decimal digits of `n`, most significant first; fuel-indexed recursion
(the fuel only serves termination and is irrelevant once `n < fuel`). -/
def natDigitsAux : ℕ → ℕ → List Char
  | 0, _ => []
  | fuel + 1, n =>
    if n < 10 then [digitCharOf n]
    else natDigitsAux fuel (n / 10) ++ [digitCharOf (n % 10)]

/-- Decimal representation of `n` (JavaScript `String(n)`), as characters. -/
def natDigits (n : ℕ) : List Char := natDigitsAux (n + 1) n

/-- `pad` from `ids.ts`: `String(n).padStart(4, "0")`. -/
def pad (n : ℕ) : String :=
  ⟨List.replicate (4 - (natDigits n).length) '0' ++ natDigits n⟩

/-- JavaScript `split("-")` on a character list. -/
def splitOnDash : List Char → List (List Char)
  | [] => [[]]
  | c :: cs =>
    let r := splitOnDash cs
    if c = '-' then [] :: r
    else
      match r with
      | [] => [[c]]
      | h :: t => (c :: h) :: t

/-- Whitespace skipped by `parseInt`. -/
def jsWhitespace (c : Char) : Bool := c = ' ' ∨ c = '\t' ∨ c = '\n' ∨ c = '\r'

/-- Consume a run of decimal digits, accumulating their value (the digit
loop of `parseInt`). -/
def takeDigitsVal : List Char → ℕ → ℕ
  | [], acc => acc
  | c :: cs, acc =>
    if c.isDigit then takeDigitsVal cs (acc * 10 + (c.toNat - 48)) else acc

/-- `parseInt` digit phase: `none` (NaN) unless the first character is a
decimal digit. -/
def parseIntDigits : List Char → Option ℕ
  | [] => none
  | c :: cs => if c.isDigit then some (takeDigitsVal (c :: cs) 0) else none

/-- JavaScript `parseInt(s, 10)`: skip leading whitespace, optional sign,
then the longest leading digit run; `none` is NaN. -/
def jsParseInt10 (cs0 : List Char) : Option ℤ :=
  match cs0.dropWhile jsWhitespace with
  | [] => none
  | c :: rest =>
    if c = '-' then (parseIntDigits rest).map (fun n => -(n : ℤ))
    else if c = '+' then (parseIntDigits rest).map (fun n => (n : ℤ))
    else (parseIntDigits (c :: rest)).map (fun n => (n : ℤ))

/-- `extractNum` from `ids.ts`: numeric suffix of an ID string
(`parts[parts.length - 1]` after `split("-")`, `parseInt`, `NaN ↦ 0`). -/
def extractNum (id : String) : ℤ :=
  let parts := splitOnDash id.data
  let last := parts.getLastD []
  match jsParseInt10 last with
  | none => 0
  | some n => n

/-- The `reduce(Math.max, 0)` over `extractNum` of all existing activity IDs
in `nextActivityId`. -/
def maxSuffix (ids : List String) : ℤ :=
  ids.foldl (fun acc id => max acc (extractNum id)) 0

/-- `nextActivityId` from `ids.ts`, as a function of the user's existing
activity IDs. -/
def nextActivityId (ids : List String) : String :=
  "A-" ++ pad (maxSuffix ids + 1).toNat

/-- The ID table after `k` sequential allocate-and-insert calls starting
from `ids` (each call runs inside the mutation that inserts the new row). -/
def allocState (ids : List String) : ℕ → List String
  | 0 => ids
  | k + 1 => allocState ids k ++ [nextActivityId (allocState ids k)]

/-- The ID produced by the `(k+1)`-st sequential allocation call. -/
def allocatedId (ids : List String) (k : ℕ) : String :=
  nextActivityId (allocState ids k)

/-! ### Conversation wizard (`flows.js`)

The per-user conversation state is a JSON bag persisted in
`settings.botState`; missing numeric fields are `Option`, missing lists are
`[]`.  Each handler is a function from the persisted state (the store) to
the new persisted state plus the list of external effects it performs, in
order.  `getState` returns the store, `setState s` replaces it, and
`setWaiting b` re-reads the store and toggles only the flag — so a handler
that was given an earlier snapshot and later calls `setState` writes that
snapshot's (possibly stale) `waiting4Reply` back.  Outbound messages are
abstracted to a tag naming the prompt being sent (the rendered text and
keyboards are transport-layer). -/

/-- One entry of the organise queue (`{id, activityId, activity}`). -/
structure QueueItem where
  id : String
  activityId : String
  activity : String
  deriving DecidableEq, Repr

/-- One goal as listed in the organise goal pick-list. -/
structure OrgGoal where
  goalId : String
  title : String
  deriving DecidableEq, Repr

/-- The three gap-analysis answers recorded for one life area. -/
structure AreaAnswers where
  ideal : Option String
  current : Option String
  obstacle : Option String
  deriving DecidableEq, Repr

/-- A goal to be created (`goalsToCreate` entries). -/
structure GoalDraft where
  title : String
  lifeArea : String
  horizon : String
  category : String
  deriving DecidableEq, Repr

/-- The persisted conversation state (`botState`). -/
structure ConvState where
  flow : Option String
  step : Option String
  waiting4Reply : Bool
  areaIndex : Option ℕ
  areaData : List (String × AreaAnswers)
  qIndex : Option ℕ
  queue : List QueueItem
  goals : List OrgGoal
  pendingGoalId : Option String
  convexUserId : String
  deriving DecidableEq, Repr

/-- The cleared conversation state (`clearState` stores `{}`). -/
def emptyConvState : ConvState :=
  { flow := none, step := none, waiting4Reply := false, areaIndex := none,
    areaData := [], qIndex := none, queue := [], goals := [],
    pendingGoalId := none, convexUserId := "" }

/-- External effects a handler performs, in order. -/
inductive Eff
  | sendMsg (tag : String)
  | createGoals (goals : List GoalDraft)
  | markOrganizeDone
  deriving DecidableEq, Repr

/-- `LIFE_AREAS` from `flows.js`. -/
def LIFE_AREAS : List String :=
  ["spiritual", "physical", "mental", "financial", "social", "emotional"]

/-- JavaScript object lookup on the `areaData` bag. -/
def lookupArea (data : List (String × AreaAnswers)) (k : String) :
    Option AreaAnswers :=
  (data.find? (fun p => p.1 = k)).map (fun p => p.2)

/-- JavaScript `String.prototype.trim`. -/
def jsTrim (s : String) : List Char :=
  ((s.data.dropWhile jsWhitespace).reverse.dropWhile jsWhitespace).reverse

/-- `deriveGoalsFromGapAnalysis` from `flows.js`: build a goal per area with
a (truthy) ideal answer plus an extra goal per obstacle answer longer than
20 characters, create them, announce completion, and move the conversation
to the interval-selection step with the awaiting-reply flag set. -/
def deriveGoalsFromGapAnalysis (store : ConvState) : ConvState × List Eff :=
  let goalsToCreate : List GoalDraft := LIFE_AREAS.flatMap fun area =>
    match lookupArea store.areaData area with
    | none => []
    | some d =>
      match d.ideal with
      | none => []
      | some ideal =>
        if ideal = "" then []
        else
          { title := "Reach ideal " ++ area ++ ": " ++ ideal.take 80,
            lifeArea := area, horizon := "annum",
            category := "main-quest" } ::
          (match d.obstacle with
           | some o =>
             if 20 < o.length then
               [{ title := "Overcome " ++ area ++ " obstacle: " ++ o.take 80,
                  lifeArea := area, horizon := "quarter",
                  category := "sleeping-dragon" }]
             else []
           | none => [])
  let newState : ConvState :=
    { emptyConvState with
      flow := some "onboarding", step := some "interval",
      convexUserId := store.convexUserId }
  ({ newState with waiting4Reply := true },
   [Eff.createGoals goalsToCreate, Eff.sendMsg "gap:complete"])

/-- The gap-analysis prompt tag for a step (`stepTexts[state.step]` with the
`'Tell me more:'` fallback). -/
def gapPromptTag (step : Option String) : String :=
  match step with
  | some s =>
    if s = "ideal" ∨ s = "current" ∨ s = "obstacle" then "gap:" ++ s
    else "gap:more"
  | none => "gap:more"

/-- `askGapAnalysisQuestion` from `flows.js`: past the last area it derives
the goals; otherwise, unless the awaiting-reply flag is set, it sends the
prompt for the current step and sets the flag. -/
def askGapAnalysisQuestion (store : ConvState) : ConvState × List Eff :=
  let area : Option String :=
    match store.areaIndex with
    | some i => LIFE_AREAS.get? i
    | none => none
  match area with
  | none => deriveGoalsFromGapAnalysis store
  | some _ =>
    if store.waiting4Reply then (store, [])
    else
      ({ store with waiting4Reply := true },
       [Eff.sendMsg (gapPromptTag store.step)])

/-- `finishOrganise` from `flows.js`: record the organise session, clear the
conversation state, and send the completion message. -/
def finishOrganise (_store : ConvState) : ConvState × List Eff :=
  (emptyConvState, [Eff.markOrganizeDone, Eff.sendMsg "organise:complete"])

/-- `presentOrganiseItem` from `flows.js`: past the end of the queue it
finishes; otherwise, unless the awaiting-reply flag is set, it presents the
current item with the goal pick-list (`goalsDb` is what `dbListGoals`
returns), stores `step = "goal"` and the goals, and sets the flag.
(`state.qIndex >= state.queue.length` is false when `qIndex` is absent:
`undefined` comparisons are false.) -/
def presentOrganiseItem (goalsDb : List OrgGoal) (store : ConvState) :
    ConvState × List Eff :=
  let pastEnd : Bool :=
    match store.qIndex with
    | some q => store.queue.length ≤ q
    | none => false
  if pastEnd then finishOrganise store
  else if store.waiting4Reply then (store, [])
  else
    ({ store with
        step := some "goal", goals := goalsDb, waiting4Reply := true },
     [Eff.sendMsg "organise:goal"])

/-- `askOrganiseStep` from `flows.js`: unless the awaiting-reply flag is
set, store the new step, and for the five known steps send that step's
prompt and set the flag. -/
def askOrganiseStep (store : ConvState) (step : String) :
    ConvState × List Eff :=
  if store.waiting4Reply then (store, [])
  else
    let st2 := { store with step := some step }
    if step = "incup" ∨ step = "area" ∨ step = "horizon" ∨ step = "type" ∨
        step = "category" then
      ({ st2 with waiting4Reply := true },
       [Eff.sendMsg ("organise:" ++ step)])
    else (st2, [])

/-- `handleOrganiseTextReply` from `flows.js`.  `stateArg` is the snapshot
the conversation router fetched before dispatching (the code mutates and
re-stores that snapshot, so its `waiting4Reply` value is written back).
The reply is parsed as `parseInt(text.trim()) - 1`; any index that is NaN,
negative, or out of range leaves the goal unset (skip). -/
def handleOrganiseTextReply (store stateArg : ConvState) (text : String) :
    ConvState × List Eff :=
  if stateArg.step ≠ some "goal" then (store, [])
  else
    let _store1 := { store with waiting4Reply := false }
    let goals := stateArg.goals
    let goal : Option OrgGoal :=
      match jsParseInt10 (jsTrim text) with
      | none => none
      | some n =>
        if 0 ≤ n - 1 then goals.get? (n - 1).toNat else none
    let stateArg2 :=
      { stateArg with pendingGoalId := goal.map (fun g => g.goalId) }
    -- `setState` then replaces the whole store (including the flag just
    -- cleared through `store1`) with the mutated snapshot:
    let store2 : ConvState := stateArg2
    askOrganiseStep store2 "incup"

/-! ### Specification-side definitions

Used only on the specification side of refinement claims; phrased from the
spec's own wording, to be compared with the source-derived functions. -/

/-- The done-score formula as the spec states it: base is the organise score
× 1.5; if a deadline exists and completion is after it, the item is late and
a penalty of 5% per hour late, capped at 50%, applies; a flat bonus if a
mental block was reported; if both actual and estimated minutes are known
and the ratio is ≤ 0.8 while on time, the larger speed bonus and one unit of
bonus currency, else if the ratio is ≤ 1.0 the smaller speed bonus; final
score `max(1, round(base × (1 − latePenalty) + blockBonus + speedBonus))`.
(The flat bonus amounts, unspecified in the spec's prose, are the source's
10 / 15 / 5.) -/
def doneScoreSpec (input : DoneXpInput) : DoneXpResult :=
  let base : ℚ := (input.organiseXp : ℚ) * (15/10)
  let isLate : Bool :=
    match input.deadline with
    | some d => d < input.completedAt
    | none => false
  let latePenalty : ℚ :=
    match input.deadline with
    | some d =>
      if d < input.completedAt then
        let hoursLate : ℚ := ((input.completedAt - d : ℤ) : ℚ) / 3600000
        min (1/2) (hoursLate * (5/100))
      else 0
    | none => 0
  let blockBonus : ℚ := if input.mentalBlock then 10 else 0
  let speedBonus : ℚ :=
    match input.actualMinutes, input.estMinutes with
    | some a, some e =>
      if a / e ≤ 8/10 ∧ isLate = false then 15
      else if a / e ≤ 1 then 5
      else 0
    | _, _ => 0
  let bonusCurrency : ℤ :=
    match input.actualMinutes, input.estMinutes with
    | some a, some e => if a / e ≤ 8/10 ∧ isLate = false then 1 else 0
    | _, _ => 0
  { doneXp := max 1 (jsRound (base * (1 - latePenalty) + blockBonus + speedBonus)),
    isLate := isLate, chrysolite := bonusCurrency }

/-- The spec's "uppercase letters" (Unicode general category Lu), tabulated
exactly on the characters the development quantifies over: ASCII `A–Z`,
Latin-1 `À–Ö` and `Ø–Þ` (192–222 except `×` = 215), and U+2102 `ℂ`
DOUBLE-STRUCK CAPITAL C (category Lu, used as the uncased uppercase
letter in the counterexample). -/
def specUppercaseLetter (c : Char) : Bool :=
  (65 ≤ c.toNat ∧ c.toNat ≤ 90) ∨
  (192 ≤ c.toNat ∧ c.toNat ≤ 222 ∧ c.toNat ≠ 215) ∨
  c.toNat = 8450

/-! ### Concrete test fixtures -/

/-- An activity that has already completed its lifecycle through the done
stage (used as a concrete input to the mutations). -/
def completedFixture : Activity :=
  { activityId := "A-0001", activity := "write report", link := none,
    feelingBefore := some .neutral, capturedAt := 1000,
    goalId := some "G-0001", incup := some "INcup",
    lifeArea := some "mental", horizon := some .week, exeType := some "task",
    category := some .mainQuest, estMinutes := some 60,
    deadline := some 500000, dependsOn := none, mentalBlock := some false,
    sessionStart := none, actualMinutes := some 30,
    completedAt := some 400000, feelingAfter := none, emotionDelta := none,
    status := .complete, updatedAt := 400000, captureXp := 10,
    organiseXp := some 50, doneXp := some 75, evaluateXp := none,
    totalXp := 135, chrysolite := some 0 }

/-- A freshly captured activity. -/
def capturedFixture : Activity :=
  (captureActivity "buy milk" none "A-0002" 1000 ⟨0, 0, 100⟩).1

/-- A minimal set of organize arguments. -/
def fixtureArgs : OrganizeArgs :=
  { goalId := none, incup := "", lifeArea := "mental", horizon := .week,
    exeType := "task", category := .sideQuest, deadline := none,
    estMinutes := none, mentalBlock := none, feelingBefore := none,
    dependsOn := none }

/-- A user with full HP and empty counters. -/
def fixtureUser : User := ⟨0, 0, 100⟩

/-- An in-progress activity with an active session and a deadline. -/
def inProgressFixture : Activity :=
  { completedFixture with
    status := .inProgress, sessionStart := some 300000,
    actualMinutes := none, completedAt := none, doneXp := none,
    chrysolite := none, totalXp := 60 }

/-- A conversation store sitting at the organise goal-selection step with
the awaiting-reply flag set, exactly as `presentOrganiseItem` leaves it. -/
def stuckStore : ConvState :=
  { flow := some "organise", step := some "goal", waiting4Reply := true,
    areaIndex := none, areaData := [], qIndex := some 0,
    queue := [⟨"doc1", "A-0001", "Buy milk"⟩],
    goals := [⟨"G-0001", "Get fit"⟩], pendingGoalId := none,
    convexUserId := "u1" }

/-- A conversation store in the guided gap-analysis flow awaiting the first
answer. -/
def gapStore : ConvState :=
  { flow := some "gap_analysis", step := some "ideal", waiting4Reply := true,
    areaIndex := some 0, areaData := [], qIndex := none, queue := [],
    goals := [], pendingGoalId := none, convexUserId := "u1" }

/-! ## Theorems -/

/-! ### Priority-tag score -/

theorem charOfNat_toNat (n : ℕ) (h : n.isValidChar) : (Char.ofNat n).toNat = n := by
  simp only [Char.ofNat, dif_pos h, Char.ofNatAux, Char.toNat, UInt32.toNat]
  rw [BitVec.toNat_ofNatLt]

theorem foldl_count_aux (p : Char → Bool) (l : List Char) (n : ℕ) :
    l.foldl (fun score ch => if p ch then score + 1 else score) n = n + l.countP p := by
  induction l generalizing n with
  | nil => simp
  | cons c cs ih =>
    by_cases h : p c
    · simp [List.countP_cons, h, ih]; omega
    · simp [List.countP_cons, h, ih]

theorem jsSliceChars_bmp (cs : List Char) (b : ℕ)
    (h : ∀ c ∈ cs, utf16Len c = 1) : jsSliceChars cs b = cs.take b := by
  induction cs generalizing b with
  | nil => simp [jsSliceChars]
  | cons c rest ih =>
    have hc := h c (List.mem_cons_self c rest)
    unfold jsSliceChars
    rw [hc]
    cases b with
    | zero => rw [if_neg (by omega)]; rfl
    | succ n =>
      rw [if_pos (by omega)]
      simp only [Nat.succ_sub_one, List.take_succ_cons]
      rw [ih _ (fun x hx => h x (List.mem_cons_of_mem c hx))]

theorem jsToUpperChars_fix_of_upper (c : Char)
    (h : (65 ≤ c.toNat ∧ c.toNat ≤ 90) ∨
         (192 ≤ c.toNat ∧ c.toNat ≤ 222 ∧ c.toNat ≠ 215)) :
    jsToUpperChars c = [c] := by
  unfold jsToUpperChars
  rw [if_neg (by omega), if_neg (by omega), if_neg (by omega),
    if_neg (by omega), if_neg (by omega)]

theorem jsToLowerChars_map_of_upper (c : Char)
    (h : (65 ≤ c.toNat ∧ c.toNat ≤ 90) ∨
         (192 ≤ c.toNat ∧ c.toNat ≤ 222 ∧ c.toNat ≠ 215)) :
    jsToLowerChars c = [Char.ofNat (c.toNat + 32)] := by
  unfold jsToLowerChars
  rcases h with h1 | h1
  · rw [if_pos h1]
  · rw [if_neg (by omega), if_pos h1]

theorem jsToLowerChars_fix (c : Char)
    (h : ¬((65 ≤ c.toNat ∧ c.toNat ≤ 90) ∨
          (192 ≤ c.toNat ∧ c.toNat ≤ 222 ∧ c.toNat ≠ 215))) :
    jsToLowerChars c = [c] := by
  unfold jsToLowerChars
  rw [if_neg (by omega), if_neg (by omega)]

/-- On the modelled ASCII + Latin-1 fragment, the JavaScript test
`ch === ch.toUpperCase() && ch !== ch.toLowerCase()` counts exactly the
uppercase letters. -/
theorem incupCharHigh_eq_spec (c : Char) (hle : c.toNat ≤ 255) :
    incupCharHigh c = specUppercaseLetter c := by
  by_cases h : (65 ≤ c.toNat ∧ c.toNat ≤ 90) ∨
      (192 ≤ c.toNat ∧ c.toNat ≤ 222 ∧ c.toNat ≠ 215)
  · have hup := jsToUpperChars_fix_of_upper c h
    have hlow := jsToLowerChars_map_of_upper c h
    have hne : Char.ofNat (c.toNat + 32) ≠ c := by
      intro he
      have h2 := congrArg Char.toNat he
      rw [charOfNat_toNat _ (Or.inl (by omega))] at h2
      omega
    have h1 : incupCharHigh c = true := by
      unfold incupCharHigh
      simp only [hup, hlow]
      simp [hne]
    have h2 : specUppercaseLetter c = true := by
      unfold specUppercaseLetter
      simp only [decide_eq_true_eq]
      tauto
    rw [h1, h2]
  · have hlow := jsToLowerChars_fix c h
    have h1 : incupCharHigh c = false := by
      unfold incupCharHigh
      simp only [hlow]
      simp
    have h2 : specUppercaseLetter c = false := by
      unfold specUppercaseLetter
      exact decide_eq_false (by
        rintro (h1 | h1 | h1)
        · exact h (Or.inl h1)
        · exact h (Or.inr h1)
        · omega)
    rw [h1, h2]

/-- C8 counterexample: `ℂ` (U+2102) is an uppercase letter (category Lu),
but it has no case mapping, so the source's test
`ch === ch.toUpperCase() && ch !== ch.toLowerCase()` rejects it:
`parseIncupScore "ℂaaaa"` is 0 where the claim predicts 1. -/
theorem priorityTag_uncased_upper_cx :
    parseIncupScore "ℂaaaa" = 0 ∧
    ("ℂaaaa".data.take 5).countP specUppercaseLetter = 1 ∧
    (0 : ℕ) ≠ 1 :=
  ⟨by decide, by decide, by decide⟩

/-- C8 (amended): on every string over the modelled ASCII + Latin-1 range
(where the Unicode case mappings are carried exactly, every character is
one UTF-16 unit, and every uppercase letter is cased), `parseIncupScore`
returns the number of uppercase letters among the first 5 characters —
lowercase, caseless and non-letter characters contribute nothing — and
`parseIncupScore "IiCUp" = 3`. -/
theorem priorityTagScore_latin1 :
    (∀ s : String, (∀ c ∈ s.data, c.toNat ≤ 255) →
      parseIncupScore s = (s.data.take 5).countP specUppercaseLetter) ∧
    parseIncupScore "IiCUp" = 3 := by
  constructor
  · intro s hs
    unfold parseIncupScore
    by_cases hempty : s = ""
    · subst hempty; simp
    · rw [if_neg hempty]
      rw [show jsTake5 s.data = s.data.take 5 from
        jsSliceChars_bmp s.data 5 (fun c hc => by
          unfold utf16Len
          rw [if_pos (by have := hs c hc; omega)])]
      rw [foldl_count_aux, Nat.zero_add]
      exact List.countP_congr (fun c hc => by
        rw [incupCharHigh_eq_spec c (hs c (List.take_subset 5 s.data hc))])
  · decide

theorem priorityTagScore_latin1_witness :
    (∀ c ∈ "Äaaaa".data, c.toNat ≤ 255) ∧
    parseIncupScore "Äaaaa" = ("Äaaaa".data.take 5).countP specUppercaseLetter :=
  ⟨by decide, priorityTagScore_latin1.1 "Äaaaa" (by decide)⟩

/-! ### Done-score formula -/

/-- C3: `computeDoneXp` implements the spec's done-score formula (for
meaningful inputs, i.e. a known estimate is positive), and on
organiseXp = 20, deadline exceeded by exactly 2 hours, no block, no timing
data it returns score 27, isLate true, bonus currency 0. -/
theorem doneScore_matches_spec :
    (∀ input : DoneXpInput, (∀ e, input.estMinutes = some e → 0 < e) →
      computeDoneXp input = doneScoreSpec input) ∧
    computeDoneXp ⟨20, 7200000, some 0, false, none, none⟩ = ⟨27, true, 0⟩ := by
  constructor
  · rintro ⟨oXp, cAt, dl, mb, am, em⟩ he
    simp only at he
    unfold computeDoneXp doneScoreSpec
    rcases dl with _ | d <;> rcases am with _ | a <;> rcases em with _ | e <;>
      simp only
    all_goals try (have h0 : (0:ℚ) < e := he e rfl; rw [if_pos h0])
    all_goals try (split_ifs <;> rfl)
    all_goals
      by_cases hc : d < cAt <;>
        simp only [hc, decide_True, decide_False, if_true, if_false,
          ite_true, ite_false] <;>
        (try split_ifs) <;>
        simp only [DoneXpResult.mk.injEq,
          (by norm_num : ((1000:ℚ) * 60 * 60) = 3600000)]
  · unfold computeDoneXp
    simp only [DoneXpResult.mk.injEq]
    norm_num [jsRound]

theorem doneScore_matches_spec_witness :
    (0:ℚ) < 30 ∧
    computeDoneXp ⟨20, 100, none, false, some 10, some 30⟩ =
      doneScoreSpec ⟨20, 100, none, false, some 10, some 30⟩ :=
  ⟨by norm_num,
   doneScore_matches_spec.1 _ (fun e hee => by
     simp only [Option.some.injEq] at hee
     rw [← hee]; norm_num)⟩

/-! ### Lifecycle state changes -/

/-- C1 counterexample: `organizeActivity` applied to an activity whose
status is already `complete` sets the status back to `organized` — the
status moves backward along the lifecycle order. -/
theorem organize_backward_cx :
    completedFixture.status = .complete ∧
    (organizeActivity completedFixture fixtureArgs 600000 fixtureUser).1.status
      = .organized ∧
    statusRank
        (organizeActivity completedFixture fixtureArgs 600000 fixtureUser).1.status
      < statusRank completedFixture.status :=
  ⟨rfl, rfl, by decide⟩

/-- C1 (amended): each operation writes a fixed status unconditionally —
`organizeActivity` always sets `organized` and `startFocusSession` always
sets `in-progress` regardless of the current status (so backward moves are
possible); a successful `finishFocusSession` sets `complete` or
`complete-late`; `evaluateActivity` never changes the status. -/
theorem lifecycle_status_targets (a : Activity) (args : OrganizeArgs)
    (u : User) (t tn : ℤ) (hs : a.sessionStart.getD 0 ≠ 0) :
    (organizeActivity a args tn u).1.status = .organized ∧
    (startFocusSession a tn).status = .inProgress ∧
    (match finishFocusSession a u t with
     | .ok (a2, _, _) => a2.status = .complete ∨ a2.status = .completeLate
     | .error _ => False) ∧
    (∀ f t3, (match evaluateActivity a u f t3 with
     | .ok (a3, _, _) => a3.status = a.status
     | .error _ => True)) := by
  refine ⟨rfl, rfl, ?_, ?_⟩
  · unfold finishFocusSession
    rw [if_neg hs]
    simp only
    by_cases hL : (computeDoneXp
      { organiseXp := a.organiseXp.getD 0, completedAt := t,
        deadline := a.deadline, mentalBlock := a.mentalBlock.getD false,
        actualMinutes :=
          some ((jsRound (((t - a.sessionStart.getD 0 : ℤ) : ℚ) / 60000) : ℚ)),
        estMinutes := a.estMinutes }).isLate <;> simp [hL]
  · intro f t3
    unfold evaluateActivity
    by_cases hd : a.doneXp.getD 0 = 0
    · rw [if_pos hd]; trivial
    · rw [if_neg hd]

theorem lifecycle_status_targets_witness :
    inProgressFixture.sessionStart.getD 0 ≠ 0 ∧
    ((organizeActivity inProgressFixture fixtureArgs 600000 fixtureUser).1.status
        = .organized ∧
    (startFocusSession inProgressFixture 600000).status = .inProgress ∧
    (match finishFocusSession inProgressFixture fixtureUser 600000 with
     | .ok (a2, _, _) => a2.status = .complete ∨ a2.status = .completeLate
     | .error _ => False) ∧
    (∀ f t3, (match evaluateActivity inProgressFixture fixtureUser f t3 with
     | .ok (a3, _, _) => a3.status = inProgressFixture.status
     | .error _ => True))) :=
  ⟨by decide,
   lifecycle_status_targets inProgressFixture fixtureArgs fixtureUser
     600000 600000 (by decide)⟩

/-- C2 counterexample: `startFocusSession` on an activity that is not
`organized` (here: freshly `captured`) does not fail — it records the
session-start timestamp and advances the status to `in-progress`. -/
theorem startFocus_unguarded_cx :
    capturedFixture.status ≠ .organized ∧
    (startFocusSession capturedFixture 777).status = .inProgress ∧
    (startFocusSession capturedFixture 777).sessionStart = some 777 :=
  ⟨by decide, rfl, rfl⟩

/-- C2 (amended): `startFocusSession` checks nothing: for every activity,
whatever its status, it records the session-start timestamp and sets the
status to `in-progress`; it never fails with an InvalidState condition. -/
theorem startFocus_always_starts (a : Activity) (t : ℤ) :
    (startFocusSession a t).status = .inProgress ∧
    (startFocusSession a t).sessionStart = some t :=
  ⟨rfl, rfl⟩

/-! ### Finish-focus lateness, vitality and idempotency -/

theorem computeDoneXp_isLate (input : DoneXpInput) :
    (computeDoneXp input).isLate =
      (match input.deadline with
       | some d => decide (d < input.completedAt)
       | none => false) := by
  obtain ⟨oXp, cAt, dl, mb, am, em⟩ := input
  unfold computeDoneXp
  rcases dl with _ | d <;> simp only
  by_cases hc : d < cAt <;> simp [hc]

/-- C4: a successful `finishFocusSession` that completes past the deadline
yields status `complete-late` and decrements the owner's HP by exactly 10,
floored at 0; an on-time completion yields `complete` and leaves HP
unchanged. -/
theorem finishFocus_late_penalty (a : Activity) (u : User) (t : ℤ)
    (hs : a.sessionStart.getD 0 ≠ 0) :
    (match finishFocusSession a u t with
     | .ok (a2, u2, _) =>
        (isLateAt a t = true →
          a2.status = .completeLate ∧ u2.hp = max 0 (u.hp - 10) ∧ 0 ≤ u2.hp) ∧
        (isLateAt a t = false → a2.status = .complete ∧ u2.hp = u.hp)
     | .error _ => False) := by
  unfold finishFocusSession
  rw [if_neg hs]
  have hL : (computeDoneXp
      { organiseXp := a.organiseXp.getD 0, completedAt := t,
        deadline := a.deadline, mentalBlock := a.mentalBlock.getD false,
        actualMinutes :=
          some ((jsRound (((t - a.sessionStart.getD 0 : ℤ) : ℚ) / 60000) : ℚ)),
        estMinutes := a.estMinutes }).isLate = isLateAt a t := by
    rw [computeDoneXp_isLate]
    unfold isLateAt
    rfl
  constructor
  · intro hLate
    simp only [hL, hLate, eq_self_iff_true, if_true, ite_true]
    exact ⟨trivial, trivial, le_max_left _ _⟩
  · intro hLate
    simp only [hL, hLate, Bool.false_eq_true, if_false, ite_false]
    exact ⟨trivial, trivial⟩

theorem finishFocus_late_penalty_witness :
    inProgressFixture.sessionStart.getD 0 ≠ 0 ∧
    (match finishFocusSession inProgressFixture fixtureUser 600000 with
     | .ok (a2, u2, _) =>
        (isLateAt inProgressFixture 600000 = true →
          a2.status = .completeLate ∧ u2.hp = max 0 (fixtureUser.hp - 10) ∧
            0 ≤ u2.hp) ∧
        (isLateAt inProgressFixture 600000 = false →
          a2.status = .complete ∧ u2.hp = fixtureUser.hp)
     | .error _ => False) :=
  ⟨by decide, finishFocus_late_penalty inProgressFixture fixtureUser 600000
    (by decide)⟩

/-- C10: a successful `finishFocusSession` clears `sessionStart`, so an
immediately retried `finishFocusSession` on the resulting activity throws
`"No active session"` (before performing any write), making the done-stage
effects at-most-once per started session. -/
theorem finish_clears_session (a : Activity) (u : User) (t : ℤ)
    (hs : a.sessionStart.getD 0 ≠ 0) :
    (match finishFocusSession a u t with
     | .ok (a2, _, _) =>
        a2.sessionStart = none ∧
        (∀ u3 t2, finishFocusSession a2 u3 t2 = .error "No active session")
     | .error _ => False) := by
  unfold finishFocusSession
  rw [if_neg hs]
  exact ⟨rfl, fun u3 t2 => rfl⟩

theorem finish_clears_session_witness :
    inProgressFixture.sessionStart.getD 0 ≠ 0 ∧
    (match finishFocusSession inProgressFixture fixtureUser 600000 with
     | .ok (a2, _, _) =>
        a2.sessionStart = none ∧
        (∀ u3 t2, finishFocusSession a2 u3 t2 = .error "No active session")
     | .error _ => False) :=
  ⟨by decide, finish_clears_session inProgressFixture fixtureUser 600000
    (by decide)⟩

/-! ### Full lifecycle: total score and bonus currency -/

theorem computeDoneXp_ontime_fast (oXp : ℤ) (cAt d : ℤ) (mb : Bool)
    (am e : ℚ) (hot : cAt ≤ d) (he : 0 < e) (hr : am / e ≤ 8/10) :
    computeDoneXp ⟨oXp, cAt, some d, mb, some am, some e⟩ =
      ⟨max 1 (jsRound ((oXp : ℚ) * (15/10) * (1 - 0) +
        (if mb then 10 else 0) + 15)), false, 1⟩ := by
  unfold computeDoneXp
  simp only [not_lt.mpr hot, if_false, ite_false, if_pos he]
  have hcond : (am / e ≤ 8/10 ∧ True) := ⟨hr, trivial⟩
  rw [if_pos hcond]

theorem evaluateActivity_ok (a : Activity) (u : User) (f : Emotion) (t : ℤ)
    (hD0 : ¬(a.doneXp.getD 0 = 0)) :
    evaluateActivity a u f t = .ok
      ({ a with
          feelingAfter := some f,
          emotionDelta := some (computeEmotionDelta a.feelingBefore (some f)),
          evaluateXp := some (computeEvaluateXp
            ⟨a.doneXp.getD 0, computeEmotionDelta a.feelingBefore (some f)⟩),
          totalXp := a.totalXp + computeEvaluateXp
            ⟨a.doneXp.getD 0, computeEmotionDelta a.feelingBefore (some f)⟩,
          updatedAt := t },
       { u with
          totalXp := u.totalXp + computeEvaluateXp
            ⟨a.doneXp.getD 0, computeEmotionDelta a.feelingBefore (some f)⟩ },
       (computeEvaluateXp
          ⟨a.doneXp.getD 0, computeEmotionDelta a.feelingBefore (some f)⟩,
        computeEmotionDelta a.feelingBefore (some f))) := by
  unfold evaluateActivity
  rw [if_neg hD0]

/-- C5: an activity taken once through
capture → organize → startFocus → finishFocus → evaluate, finishing on time
(at or before a set deadline) with actual minutes at most 80% of a known
positive estimate, ends with its stored total XP equal to the exact sum of
the four per-stage XPs, and with exactly one chrysolite on the activity. -/
theorem lifecycle_total_is_sum
    (txt : String) (link : Option String) (id : String) (t0 : ℤ) (u0 : User)
    (args : OrganizeArgs) (t1 t2 t3 t4 : ℤ) (feeling : Emotion)
    (d : ℤ) (e : ℚ)
    (hd : args.deadline = some d) (hest : args.estMinutes = some e)
    (he : 0 < e) (ht2 : t2 ≠ 0) (hontime : t3 ≤ d)
    (hratio : ((jsRound (((t3 - t2 : ℤ) : ℚ) / 60000) : ℚ)) ≤ (8/10) * e) :
    lifecycleClaimHolds
      (runLifecycle txt link id t0 u0 args t1 t2 t3 feeling t4) := by
  obtain ⟨goalId, incup, lifeArea, horizon, exeType, category, dl, est, mb,
    fb, dep⟩ := args
  simp only at hd hest
  subst hd
  subst hest
  unfold runLifecycle captureActivity organizeActivity startFocusSession
    finishFocusSession
  dsimp only [Option.getD]
  rw [if_neg ht2]
  have hr2 : ((jsRound (((t3 - t2 : ℤ) : ℚ) / 60000) : ℚ)) / e ≤ 8/10 :=
    (div_le_iff₀ he).mpr hratio
  rw [computeDoneXp_ontime_fast _ _ _ _ _ _ hontime he hr2]
  dsimp only
  rw [evaluateActivity_ok _ _ _ _ (by dsimp only [Option.getD]; positivity)]
  dsimp only [lifecycleClaimHolds, Option.getD]
  constructor
  · ring
  · norm_num

theorem lifecycle_total_is_sum_witness :
    lifecycleClaimHolds
      (runLifecycle "task" none "A-0001" 1000 fixtureUser
        { fixtureArgs with deadline := some 10000000, estMinutes := some 100 }
        2000 60000 3660000 .joyful 4000000) :=
  lifecycle_total_is_sum "task" none "A-0001" 1000 fixtureUser
    { fixtureArgs with deadline := some 10000000, estMinutes := some 100 }
    2000 60000 3660000 4000000 .joyful 10000000 100 rfl rfl (by norm_num)
    (by decide) (by decide) (by norm_num [jsRound])

/-! ### ID allocator -/

theorem digitCharOf_isDigit (d : ℕ) (h : d < 10) : (digitCharOf d).isDigit = true := by
  interval_cases d <;> decide

theorem digitCharOf_val (d : ℕ) (h : d < 10) : (digitCharOf d).toNat - 48 = d := by
  interval_cases d <;> decide

theorem isDigit_ne_dash (c : Char) (h : c.isDigit = true) : c ≠ '-' := by
  intro hc; subst hc; exact absurd h (by decide)

theorem isDigit_ne_plus (c : Char) (h : c.isDigit = true) : c ≠ '+' := by
  intro hc; subst hc; exact absurd h (by decide)

theorem isDigit_not_ws (c : Char) (h : c.isDigit = true) : jsWhitespace c = false := by
  unfold jsWhitespace
  simp only [decide_eq_false_iff_not]
  rintro (rfl | rfl | rfl | rfl) <;> exact absurd h (by decide)

theorem natDigitsAux_digits (fuel : ℕ) : ∀ (n : ℕ), ∀ c ∈ natDigitsAux fuel n, c.isDigit = true := by
  induction fuel with
  | zero => intro n c hc; simp [natDigitsAux] at hc
  | succ fuel ih =>
    intro n c hc
    unfold natDigitsAux at hc
    split_ifs at hc with h
    · simp at hc; subst hc; exact digitCharOf_isDigit n h
    · rcases List.mem_append.mp hc with h1 | h1
      · exact ih _ _ h1
      · simp at h1; subst h1
        exact digitCharOf_isDigit _ (Nat.mod_lt _ (by norm_num))

theorem natDigitsAux_ne_nil (fuel n : ℕ) (h : n < fuel) : natDigitsAux fuel n ≠ [] := by
  cases fuel with
  | zero => omega
  | succ fuel =>
    unfold natDigitsAux
    split_ifs <;> simp
theorem takeDigitsVal_append (xs ys : List Char) (acc : ℕ)
    (hx : ∀ c ∈ xs, c.isDigit = true) :
    takeDigitsVal (xs ++ ys) acc = takeDigitsVal ys (takeDigitsVal xs acc) := by
  induction xs generalizing acc with
  | nil => rfl
  | cons c cs ih =>
    have hc := hx c (List.mem_cons_self c cs)
    simp only [List.cons_append, takeDigitsVal, hc, if_true]
    exact ih _ (fun x hxx => hx x (List.mem_cons_of_mem c hxx))

theorem takeDigitsVal_zeros (k : ℕ) :
    takeDigitsVal (List.replicate k '0') 0 = 0 := by
  induction k with
  | zero => rfl
  | succ k ih =>
    simp only [List.replicate_succ, takeDigitsVal]
    rw [if_pos (by decide)]
    simpa using ih

theorem takeDigitsVal_natDigitsAux (fuel : ℕ) :
    ∀ n acc, n < fuel →
      takeDigitsVal (natDigitsAux fuel n) acc =
        acc * 10 ^ (natDigitsAux fuel n).length + n := by
  induction fuel with
  | zero => intro n acc h; omega
  | succ fuel ih =>
    intro n acc h
    unfold natDigitsAux
    split_ifs with h10
    · simp only [takeDigitsVal, digitCharOf_isDigit n h10, if_true]
      simp [digitCharOf_val n h10, pow_one]
    · have hlt : n / 10 < fuel := by
        have h1 : n / 10 < n := Nat.div_lt_self (by omega) (by norm_num)
        omega
      rw [takeDigitsVal_append _ _ _ (natDigitsAux_digits fuel (n / 10))]
      rw [ih (n / 10) acc hlt]
      simp only [takeDigitsVal, digitCharOf_isDigit _ (Nat.mod_lt n (by norm_num)),
        if_true, digitCharOf_val _ (Nat.mod_lt n (by norm_num))]
      rw [List.length_append, List.length_singleton, pow_succ]
      have hdm := Nat.div_add_mod n 10
      ring_nf
      omega

theorem parseIntDigits_all (cs : List Char) (h1 : cs ≠ [])
    (h2 : ∀ c ∈ cs, c.isDigit = true) :
    parseIntDigits cs = some (takeDigitsVal cs 0) := by
  cases cs with
  | nil => exact absurd rfl h1
  | cons c rest =>
    unfold parseIntDigits
    dsimp only
    rw [if_pos (h2 c (List.mem_cons_self c rest))]

theorem pad_data (n : ℕ) :
    (pad n).data = List.replicate (4 - (natDigits n).length) '0' ++ natDigits n := rfl

theorem pad_digits (n : ℕ) : ∀ c ∈ (pad n).data, c.isDigit = true := by
  intro c hc
  rw [pad_data] at hc
  rcases List.mem_append.mp hc with h1 | h1
  · rw [List.eq_of_mem_replicate h1]; decide
  · exact natDigitsAux_digits _ _ _ h1

theorem pad_data_ne_nil (n : ℕ) : (pad n).data ≠ [] := by
  rw [pad_data]
  intro h
  rcases List.append_eq_nil.mp h with ⟨_, h2⟩
  exact natDigitsAux_ne_nil _ _ (Nat.lt_succ_self n) h2

theorem takeDigitsVal_pad (n : ℕ) : takeDigitsVal ((pad n).data) 0 = n := by
  rw [pad_data]
  unfold natDigits
  rw [takeDigitsVal_append _ _ _ (fun c hc => by
      rw [List.eq_of_mem_replicate hc]; decide),
    takeDigitsVal_zeros,
    takeDigitsVal_natDigitsAux (n + 1) n 0 (Nat.lt_succ_self n)]
  simp

theorem jsParseInt10_digits (cs : List Char) (h1 : cs ≠ [])
    (h2 : ∀ c ∈ cs, c.isDigit = true) :
    jsParseInt10 cs = some ((takeDigitsVal cs 0 : ℕ) : ℤ) := by
  cases cs with
  | nil => exact absurd rfl h1
  | cons c rest =>
    have hc := h2 c (List.mem_cons_self c rest)
    unfold jsParseInt10
    rw [List.dropWhile_cons_of_neg (by simp [isDigit_not_ws c hc])]
    dsimp only
    rw [if_neg (isDigit_ne_dash c hc), if_neg (isDigit_ne_plus c hc)]
    rw [parseIntDigits_all _ (by simp) h2]
    rfl

theorem splitOnDash_ne_nil (cs : List Char) : splitOnDash cs ≠ [] := by
  cases cs with
  | nil => simp [splitOnDash]
  | cons c rest =>
    unfold splitOnDash
    split_ifs
    · simp
    · cases h : splitOnDash rest <;> simp

theorem splitOnDash_no_dash (cs : List Char) (h : '-' ∉ cs) :
    splitOnDash cs = [cs] := by
  induction cs with
  | nil => rfl
  | cons c rest ih =>
    unfold splitOnDash
    rw [if_neg (by intro hc; exact h (hc ▸ List.mem_cons_self c rest))]
    rw [ih (fun hm => h (List.mem_cons_of_mem c hm))]

theorem splitOnDash_len2 (cs : List Char) (h : '-' ∈ cs) :
    2 ≤ (splitOnDash cs).length := by
  induction cs with
  | nil => simp at h
  | cons c rest ih =>
    unfold splitOnDash
    split_ifs with hc
    · have := splitOnDash_ne_nil rest
      simp only [List.length_cons]
      cases hsp : splitOnDash rest with
      | nil => exact absurd hsp this
      | cons a b => simp
    · have hm : '-' ∈ rest := by
        rcases List.mem_cons.mp h with h1 | h1
        · exact absurd h1.symm hc
        · exact h1
      have h2 := ih hm
      cases hsp : splitOnDash rest with
      | nil => exact absurd hsp (splitOnDash_ne_nil rest)
      | cons a b =>
        rw [hsp] at h2
        simpa using h2

theorem getLastD_irrel (l : List (List Char)) (h : l ≠ []) (d1 d2 : List Char) :
    l.getLastD d1 = l.getLastD d2 := by
  cases l with
  | nil => exact absurd rfl h
  | cons a t => simp only [List.getLastD_cons]

theorem splitOnDash_last (xs ys : List Char) (h : '-' ∉ ys) :
    (splitOnDash (xs ++ '-' :: ys)).getLastD [] = ys := by
  induction xs with
  | nil =>
    simp only [List.nil_append]
    unfold splitOnDash
    rw [if_pos rfl, splitOnDash_no_dash ys h]
    rfl
  | cons x xs ih =>
    have hmem : '-' ∈ xs ++ '-' :: ys :=
      List.mem_append.mpr (Or.inr (List.mem_cons_self _ _))
    have hlen := splitOnDash_len2 _ hmem
    have hnn := splitOnDash_ne_nil (xs ++ '-' :: ys)
    simp only [List.cons_append]
    unfold splitOnDash
    split_ifs with hx
    · rw [List.getLastD_cons]
      exact ih
    · cases hsp : splitOnDash (xs ++ '-' :: ys) with
      | nil => exact absurd hsp hnn
      | cons a t =>
        rw [hsp] at hlen ih
        have ht : t ≠ [] := by
          intro h0
          rw [h0] at hlen
          simp at hlen
        calc ((x :: a) :: t).getLastD [] = t.getLastD (x :: a) :=
              List.getLastD_cons _ _ _
          _ = t.getLastD a := getLastD_irrel t ht _ _
          _ = (a :: t).getLastD [] := (List.getLastD_cons _ _ _).symm
          _ = ys := ih

theorem extractNum_pad (m : ℕ) : extractNum ("A-" ++ pad m) = (m : ℤ) := by
  unfold extractNum
  have hdata : ("A-" ++ pad m).data = ['A'] ++ '-' :: (pad m).data := by
    rw [String.data_append]
    rfl
  rw [hdata]
  dsimp only
  have hnd : '-' ∉ (pad m).data := by
    intro hm
    exact absurd rfl (isDigit_ne_dash '-' (pad_digits m '-' hm))
  rw [splitOnDash_last ['A'] _ hnd]
  rw [jsParseInt10_digits _ (pad_data_ne_nil m) (pad_digits m)]
  rw [takeDigitsVal_pad]

theorem foldl_max_le_init (ids : List String) (init : ℤ) :
    init ≤ ids.foldl (fun acc id => max acc (extractNum id)) init := by
  induction ids generalizing init with
  | nil => simp
  | cons id rest ih =>
    simp only [List.foldl_cons]
    exact le_trans (le_max_left _ _) (ih _)

theorem maxSuffix_nonneg (ids : List String) : 0 ≤ maxSuffix ids :=
  foldl_max_le_init ids 0

theorem maxSuffix_append (ids : List String) (id : String) :
    maxSuffix (ids ++ [id]) = max (maxSuffix ids) (extractNum id) := by
  unfold maxSuffix
  rw [List.foldl_append]
  rfl

theorem extractNum_nextActivityId (ids : List String) :
    extractNum (nextActivityId ids) = maxSuffix ids + 1 := by
  unfold nextActivityId
  rw [extractNum_pad]
  rw [Int.toNat_of_nonneg (by linarith [maxSuffix_nonneg ids])]

theorem maxSuffix_allocState (ids : List String) (k : ℕ) :
    maxSuffix (allocState ids k) = maxSuffix ids + k := by
  induction k with
  | zero => simp [allocState]
  | succ k ih =>
    unfold allocState
    rw [maxSuffix_append, extractNum_nextActivityId, ih]
    rw [max_eq_right (by linarith)]
    push_cast
    ring

/-- C6 (amended): for a fixed owner, the k-th sequential allocation call
returns `"A-" ++ pad(max + 1)` over the current table; with each returned ID
inserted before the next call, the k-th allocated suffix is exactly
`maxSuffix(initial) + 1 + k`, so consecutive allocations increase by exactly
one and never repeat a suffix.  (Suffixes are read by `parseInt`: the
longest leading digit run of the part after the last dash; a suffix with no
leading digits counts as 0.) -/
theorem allocator_sequential :
    (∀ ids k, extractNum (allocatedId ids k) = maxSuffix ids + 1 + k) ∧
    (∀ ids j k, j < k →
      extractNum (allocatedId ids j) < extractNum (allocatedId ids k)) ∧
    (∀ ids k,
      allocatedId ids k = "A-" ++ pad (maxSuffix (allocState ids k) + 1).toNat) := by
  have h1 : ∀ ids k, extractNum (allocatedId ids k) = maxSuffix ids + 1 + k := by
    intro ids k
    unfold allocatedId
    rw [extractNum_nextActivityId, maxSuffix_allocState]
    ring
  refine ⟨h1, ?_, ?_⟩
  · intro ids j k hjk
    rw [h1, h1]
    have : (j : ℤ) < (k : ℤ) := by exact_mod_cast hjk
    linarith
  · intro ids k
    rfl

/-- C6 counterexample: the malformed suffix `"12ab"` is not treated as 0 —
`parseInt` reads its leading digits, so `extractNum "A-12ab" = 12` and the
next ID after `["A-12ab"]` is `"A-0013"`, not the `"A-0001"` the claim
predicts. -/
theorem allocator_cx :
    extractNum "A-12ab" = 12 ∧ (12 : ℤ) ≠ 0 ∧
    nextActivityId ["A-12ab"] = "A-0013" ∧ nextActivityId ["A-12ab"] ≠ "A-0001" := by
  refine ⟨by decide, by decide, by decide, by decide⟩

theorem allocator_sequential_witness :
    0 < 1 ∧
    extractNum (allocatedId ["A-0005"] 0) < extractNum (allocatedId ["A-0005"] 1) :=
  ⟨by decide, allocator_sequential.2.1 ["A-0005"] 0 1 (by decide)⟩

/-! ### Wizard prompt debouncing -/

/-- C9: while the stored conversation state has the awaiting-reply flag set
and the flow is at a current step (gap-analysis area index in range;
organise queue index in range), each prompt-issuing function —
`askGapAnalysisQuestion`, `presentOrganiseItem`, `askOrganiseStep` —
sends no message and returns the stored state unchanged. -/
theorem awaiting_reply_suppresses (st1 st2 st3 : ConvState)
    (goalsDb : List OrgGoal) (step : String) (i q : ℕ)
    (hw1 : st1.waiting4Reply = true) (hidx : st1.areaIndex = some i)
    (hi6 : i < LIFE_AREAS.length)
    (hw2 : st2.waiting4Reply = true) (hq : st2.qIndex = some q)
    (hqlen : q < st2.queue.length)
    (hw3 : st3.waiting4Reply = true) :
    askGapAnalysisQuestion st1 = (st1, []) ∧
    presentOrganiseItem goalsDb st2 = (st2, []) ∧
    askOrganiseStep st3 step = (st3, []) := by
  refine ⟨?_, ?_, ?_⟩
  · unfold askGapAnalysisQuestion
    rw [hidx]
    dsimp only
    rw [List.get?_eq_get hi6]
    simp [hw1]
  · unfold presentOrganiseItem
    rw [hq]
    dsimp only
    have hpe : decide (st2.queue.length ≤ q) = false := by
      simp [Nat.not_le.mpr hqlen]
    simp [hpe, hw2]
  · unfold askOrganiseStep
    simp [hw3]

theorem awaiting_reply_suppresses_witness :
    (gapStore.waiting4Reply = true ∧ gapStore.areaIndex = some 0 ∧
      0 < LIFE_AREAS.length ∧ stuckStore.waiting4Reply = true ∧
      stuckStore.qIndex = some 0 ∧ 0 < stuckStore.queue.length) ∧
    (askGapAnalysisQuestion gapStore = (gapStore, []) ∧
     presentOrganiseItem [] stuckStore = (stuckStore, []) ∧
     askOrganiseStep stuckStore "area" = (stuckStore, [])) :=
  ⟨⟨rfl, rfl, by decide, rfl, rfl, by decide⟩,
   awaiting_reply_suppresses gapStore stuckStore stuckStore [] "area" 0 0
     rfl rfl (by decide) rfl rfl (by decide) rfl⟩

/-! ### Organise wizard: invalid goal reply -/

/-- C7 (the code's behavior at the failing input): at the goal-selection
step, with the stored state as `presentOrganiseItem` leaves it
(awaiting-reply flag set), the unparsable reply `"abc"` produces NO
outbound message — in particular the goal prompt is not re-issued — and the
stored state is unchanged: still at the goal step, with `pendingGoalId`
silently set to the skip value.  (The handler clears the flag, but
`setState` then writes back the stale snapshot whose flag is still set, so
the follow-up `askOrganiseStep "incup"` is suppressed: a silent no-op, not
the re-prompt the spec requires.) -/
theorem organise_invalid_reply_silent :
    handleOrganiseTextReply stuckStore stuckStore "abc" = (stuckStore, []) ∧
    (handleOrganiseTextReply stuckStore stuckStore "abc").1.step
      = some "goal" ∧
    (handleOrganiseTextReply stuckStore stuckStore "abc").1.pendingGoalId
      = none := by
  refine ⟨by decide, by decide, by decide⟩

end Noufeli
